import Mathlib

/-!
Verification of the ReminderBot reminder lifecycle and scheduling engine.

This file is a shallow embedding of the reminder core:
  * `src/processors/reminder_processor.py` — the in-memory draft (`Reminder`
    class), `parsePeriod`, `parseTime`, the draft cache, and `process`;
  * `src/db/models.py` — the persisted `Reminder` model with `rewind`,
    `success`, `snooze`, `skip`, `stop`, and `create`;
  * `src/menus.py` — `SaveMenu.handle`, `ReminderMsg.handle`,
    `RawMessagesProcessor.handle`.

Modelling conventions:
  * timestamps (`datetime`) are integers counting seconds since the epoch;
    `mkDT` builds such an instant from a calendar date and time of day using
    the standard civil-calendar conversion (the same proleptic Gregorian
    calendar Python's `datetime` uses);
  * `dateutil.relativedelta` values are `RDelta` records of their six integer
    relative fields.  `relativedelta._fix` carry-normalisation (60 min → 1 h,
    12 mon → 1 y, 24 h → 1 d) is not applied; it does not change the result
    of adding a delta to a datetime, which is the only way deltas are
    observed by the code under verification;
  * Python strings are `List Char`; regular-expression matching in
    `parsePeriod` is implemented by an equivalent explicit scan restricted to
    ASCII digits;
  * `datetime.now()` is an explicit `now : ℤ` parameter, frozen for the
    duration of one call;
  * the unbounded `while` loop in `Reminder.rewind` is given explicit fuel:
    `rewindLoop fuel` returns `none` exactly when the loop is still running
    after `fuel` guard checks, so both the step count of a terminating run
    and divergence are expressible;
  * SQLAlchemy sessions/commits are dropped: each operation is a pure
    function from the old record (and the owning chat-user) to the new one;
  * `karma` is a SQL `Float`; it is modelled as an exact rational.
-/

/-- Model of `dateutil.relativedelta` restricted to the six relative integer fields the
repository uses (it never sets `leapdays`, `weekday`, or absolute fields).
`weeks=n` in dateutil is stored as `days := 7*n`, which is how the repository
builds its `w` unit. -/
structure RDelta where
  years : ℤ
  months : ℤ
  days : ℤ
  hours : ℤ
  minutes : ℤ
  seconds : ℤ
deriving DecidableEq

/-- The zero delta, `relativedelta()`. -/
def RDelta.zero : RDelta := ⟨0, 0, 0, 0, 0, 0⟩

/-- Delta addition `relativedelta.__add__`: fields add componentwise. -/
def RDelta.add (a b : RDelta) : RDelta :=
  ⟨a.years + b.years, a.months + b.months, a.days + b.days,
   a.hours + b.hours, a.minutes + b.minutes, a.seconds + b.seconds⟩

/-- Delta scaling `relativedelta.__mul__` with an integer factor: fields scale. -/
def RDelta.mul (a : RDelta) (n : ℤ) : RDelta :=
  ⟨a.years * n, a.months * n, a.days * n, a.hours * n, a.minutes * n, a.seconds * n⟩

/-- Total length in seconds of the `timedelta` part of a delta (the part that
is added linearly once the calendar fields have been applied). -/
def RDelta.linSeconds (a : RDelta) : ℤ :=
  ((a.days * 24 + a.hours) * 60 + a.minutes) * 60 + a.seconds

/-- Gregorian leap-year test, as in Python's `calendar.isleap`. -/
def isLeap (y : ℤ) : Bool :=
  y % 4 = 0 && (y % 100 ≠ 0 || y % 400 = 0)

/-- Length of month `m` of year `y` (Python `calendar.monthrange`). -/
def daysInMonth (y m : ℤ) : ℤ :=
  if m = 2 then (if isLeap y then 29 else 28)
  else if m = 4 ∨ m = 6 ∨ m = 9 ∨ m = 11 then 30
  else 31

/-- Days from the epoch 1970-01-01 to the civil date `y-m-d` (proleptic
Gregorian), the arithmetic underlying Python's `datetime.toordinal`. -/
def daysFromCivil (y m d : ℤ) : ℤ :=
  let y2 : ℤ := y - (if m ≤ 2 then 1 else 0)
  let era : ℤ := y2.fdiv 400
  let yoe : ℤ := y2 - era * 400
  let mp : ℤ := (m + 9) % 12
  let doy : ℤ := (153 * mp + 2) / 5 + d - 1
  let doe : ℤ := yoe * 365 + yoe / 4 - yoe / 100 + doy
  era * 146097 + doe - 719468

/-- Inverse of `daysFromCivil`: the civil date `(y, m, d)` of a day count
(the arithmetic underlying Python's `datetime.fromordinal`). -/
def civilFromDays (z : ℤ) : ℤ × ℤ × ℤ :=
  let z2 : ℤ := z + 719468
  let era : ℤ := z2.fdiv 146097
  let doe : ℤ := z2 - era * 146097
  let yoe : ℤ := (doe - doe / 1460 + doe / 36524 - doe / 146096) / 365
  let y : ℤ := yoe + era * 400
  let doy : ℤ := doe - (365 * yoe + yoe / 4 - yoe / 100)
  let mp : ℤ := (5 * doy + 2) / 153
  let d : ℤ := doy - (153 * mp + 2) / 5 + 1
  let m : ℤ := mp + (if mp < 10 then 3 else -9)
  (y + (if m ≤ 2 then 1 else 0), m, d)

/-- Build the instant `y-m-d h:mi:s` as seconds since the epoch. -/
def mkDT (y m d h mi s : ℤ) : ℤ :=
  86400 * daysFromCivil y m d + 3600 * h + 60 * mi + s

/-- Addition `datetime + relativedelta` (dateutil `relativedelta.__radd__`): the
`years`/`months` fields move the calendar date, clamping the day-of-month to
the target month's length, and the remaining fields are added as a plain
`timedelta`.  When `years` and `months` are both zero the calendar step is
the identity on a valid date, so only the linear part remains. -/
def addDelta (t : ℤ) (a : RDelta) : ℤ :=
  if a.years = 0 ∧ a.months = 0 then
    t + a.linSeconds
  else
    let day : ℤ := t.fdiv 86400
    let rsec : ℤ := t.fmod 86400
    let c := civilFromDays day
    let tm : ℤ := c.1 * 12 + (c.2.1 - 1) + a.years * 12 + a.months
    let y2 : ℤ := tm.fdiv 12
    let m2 : ℤ := tm.fmod 12 + 1
    let d2 : ℤ := min c.2.2 (daysInMonth y2 m2)
    86400 * daysFromCivil y2 m2 d2 + rsec + a.linSeconds

/-- ASCII digit test — the characters matched by `\d` on the bot's input
(the model restricts Python's Unicode `\d` to ASCII). -/
def isDig (c : Char) : Bool := c.isDigit

/-- Numeric value of a digit string, as Python `int` on an all-digit string. -/
def digitsVal (l : List Char) : ℕ :=
  l.foldl (fun a c => 10 * a + (c.toNat - 48)) 0

/-- The `Reminder.date_markup` table: unit token → unit delta. -/
def date_markup (u : List Char) : Option RDelta :=
  if u = ['y'] then some ⟨1, 0, 0, 0, 0, 0⟩
  else if u = ['m', 'o', 'n'] then some ⟨0, 1, 0, 0, 0, 0⟩
  else if u = ['w'] then some ⟨0, 0, 7, 0, 0, 0⟩
  else if u = ['d'] then some ⟨0, 0, 1, 0, 0, 0⟩
  else if u = ['h'] then some ⟨0, 0, 0, 1, 0, 0⟩
  else if u = ['m', 'i', 'n'] then some ⟨0, 0, 0, 0, 1, 0⟩
  else none

/-- Preprocessing `period.lower().replace(" ", "")` — lowercase, then drop spaces. -/
def preprocess (l : List Char) : List Char :=
  (l.map Char.toLower).filter (fun c => c ≠ ' ')

/-- The test `re.match(r"(\d+[^\d]+)+", p)` viewed as a Boolean: the prefix match
succeeds iff the text starts with a digit and the leading digit run is
followed by at least one non-digit character. -/
def prefixMatch (l : List Char) : Bool :=
  match l with
  | [] => false
  | c :: _ => isDig c && !(l.dropWhile isDig).isEmpty

/-- The scan `re.findall(r"(\d+[^\d]+)", p)` split into `(digit run, unit run)` pairs
by a single left-to-right scan: `ds`/`us` accumulate (reversed) the digit and
non-digit run of the token currently being matched; a digit arriving while a
unit run is open closes the token, and a trailing digit run with no unit is
not a match and is discarded, exactly as the regex scan does. -/
def tokRun : List Char → List Char → List Char → List (List Char × List Char)
  | [], ds, us => if ds ≠ [] ∧ us ≠ [] then [(ds.reverse, us.reverse)] else []
  | c :: cs, ds, us =>
    if isDig c then
      if us ≠ [] then (ds.reverse, us.reverse) :: tokRun cs [c] []
      else tokRun cs (c :: ds) us
    else
      if ds ≠ [] then tokRun cs ds (c :: us)
      else tokRun cs [] []

/-- All `(amount, unit)` tokens of a preprocessed period string. -/
def tokenize (l : List Char) : List (List Char × List Char) := tokRun l [] []

/-- How `Reminder.parsePeriod` fails: `.malformed` is the explicit
`ValueError` raised when the grammar does not match; `.unknownUnit u` is the
`KeyError` escaping from the `date_markup[partType]` lookup. -/
inductive PeriodErr where
  | malformed : PeriodErr
  | unknownUnit : List Char → PeriodErr
deriving DecidableEq

/-- The accumulation loop of `parsePeriod`:
`result += date_markup[partType] * amount` over the found tokens, failing
with the `KeyError` of the first unknown unit. -/
def parsePeriodGo : List (List Char × List Char) → RDelta → Except PeriodErr RDelta
  | [], acc => .ok acc
  | (ds, us) :: ts, acc =>
    match date_markup us with
    | none => .error (.unknownUnit us)
    | some scale => parsePeriodGo ts (acc.add (scale.mul (digitsVal ds)))

/-- Model of `Reminder.parsePeriod`. -/
def parsePeriod (l : List Char) : Except PeriodErr RDelta :=
  let p := preprocess l
  if prefixMatch p then parsePeriodGo (tokenize p) RDelta.zero
  else .error .malformed

instance {ε α : Type} [DecidableEq ε] [DecidableEq α] : DecidableEq (Except ε α) :=
  fun a b =>
    match a, b with
    | .error x, .error y =>
      if h : x = y then isTrue (by rw [h]) else isFalse (fun hc => h (Except.error.inj hc))
    | .ok x, .ok y =>
      if h : x = y then isTrue (by rw [h]) else isFalse (fun hc => h (Except.ok.inj hc))
    | .error _, .ok _ => isFalse (fun hc => Except.noConfusion hc)
    | .ok _, .error _ => isFalse (fun hc => Except.noConfusion hc)

/-- Prepend a character to the first part of a split (helper of `splitC`). -/
def consHead (x : Char) : List (List Char) → List (List Char)
  | [] => [[x]]
  | h :: t => (x :: h) :: t

/-- Python `str.split` with a one-character separator (Python semantics: the empty
string yields one empty part, adjacent separators yield empty parts). -/
def splitC (c : Char) : List Char → List (List Char)
  | [] => [[]]
  | x :: xs => if x = c then [] :: splitC c xs else consHead x (splitC c xs)

/-- Python `int(text)` on space-stripped text: an optional sign followed by a
non-empty ASCII digit string.  (Underscore digit grouping and non-ASCII
digits, which CPython also accepts, are outside the model; no claim depends
on them.) -/
def pyInt (l : List Char) : Option ℤ :=
  match l with
  | '-' :: ds => if ds ≠ [] ∧ ds.all isDig then some (-(digitsVal ds : ℤ)) else none
  | '+' :: ds => if ds ≠ [] ∧ ds.all isDig then some ((digitsVal ds : ℤ)) else none
  | ds => if ds ≠ [] ∧ ds.all isDig then some ((digitsVal ds : ℤ)) else none

/-- The `ValueError` of `Reminder.parseTime` (a component `int()` fails). -/
inductive TimeErr where
  | malformedTime : TimeErr
deriving DecidableEq

/-- Model of `Reminder.parseTime`: strip spaces, split on `:`, convert every part with
`int`, and pad with zeros up to three components.  More than three components
are returned as-is (the caller's unpacking then fails). -/
def parseTime (l : List Char) : Except TimeErr (List ℤ) :=
  let parts := (splitC ':' (l.filter (fun c => c ≠ ' '))).map pyInt
  if parts.all Option.isSome then
    .ok ((parts.map (fun o => o.getD 0)) ++ List.replicate (3 - parts.length) 0)
  else .error .malformedTime

/-- The fields a draft can be waiting for (`ReminderField`). -/
inductive ReminderField where
  | name : ReminderField
  | date : ReminderField
  | time : ReminderField
  | period : ReminderField
deriving DecidableEq

/-- The in-memory draft (`processors.reminder_processor.Reminder` instance
state): the next field to fill, and the collected name, first fire time and
recurrence. -/
structure Draft where
  waiting_for : Option ReminderField
  name : Option (List Char)
  date : Option ℤ
  period : Option RDelta
deriving DecidableEq

/-- The freshly constructed draft (`Reminder.__init__` field defaults). -/
def Draft.new : Draft := ⟨none, none, none, none⟩

/-- The draft registry (`Reminder.cache`, a `TTLCache` keyed by chat id).
A key maps to the live draft, or to `none` when no draft exists or the TTL
entry has expired.  One value per key makes "at most one draft per
conversation" structural. -/
def Cache : Type := ℤ → Option Draft

/-- The `AlreadyInProcess` error. -/
inductive RegErr where
  | alreadyInProcess : RegErr
deriving DecidableEq

/-- Model of `Reminder.__init__(update)`: raise `AlreadyInProcess` when the cache
already holds a draft for the conversation (leaving the cache as it was),
otherwise store and return a fresh draft under the conversation key. -/
def reminderInit (cache : Cache) (cid : ℤ) : Except RegErr Draft × Cache :=
  match cache cid with
  | some _ => (.error .alreadyInProcess, cache)
  | none => (.ok Draft.new, fun j => if j = cid then some Draft.new else cache j)

/-- Errors raised out of `Reminder.process`: `NothingToDo`, the two
`ValueError`s of the parsers (and of out-of-range `datetime.replace`), and
the `KeyError` escaping `parsePeriod` on an unknown unit. -/
inductive ProcErr where
  | nothingToDo : ProcErr
  | malformedPeriod : ProcErr
  | unknownUnit : List Char → ProcErr
  | malformedTime : ProcErr
deriving DecidableEq

/-- Model of `Reminder.process(update)` on message text `text` at time `now`.  The
Python method mutates the instance in place; the model returns the updated
draft on success and, on failure, the error together with the draft as
mutated so far (the `time` branch assigns `self.date = datetime.now()`
before parsing, so that assignment survives a parse failure). -/
def Draft.process (d : Draft) (text : List Char) (now : ℤ) : Except (ProcErr × Draft) Draft :=
  match d.waiting_for with
  | some .name => .ok { d with name := some text, waiting_for := none }
  | some .period =>
    match parsePeriod text with
    | .ok p => .ok { d with period := some p, waiting_for := none }
    | .error .malformed => .error (.malformedPeriod, d)
    | .error (.unknownUnit u) => .error (.unknownUnit u, d)
  | some .time =>
    let base := d.date.getD now
    let d2 : Draft := { d with date := some base }
    match parseTime text with
    | .error .malformedTime => .error (.malformedTime, d2)
    | .ok parts =>
      match parts with
      | [h, mi, s] =>
        -- `datetime.replace(hour, minute, second)` validates the ranges and
        -- raises `ValueError` (caught like a parse failure) when violated.
        if 0 ≤ h ∧ h < 24 ∧ 0 ≤ mi ∧ mi < 60 ∧ 0 ≤ s ∧ s < 60 then
          .ok { d2 with date := some (base.fdiv 86400 * 86400 + 3600 * h + 60 * mi + s),
                        waiting_for := none }
        else .error (.malformedTime, d2)
      | _ =>
        -- unpacking `hour, minute, second = parseTime(...)` raises
        -- `ValueError` when the list does not have exactly three items
        .error (.malformedTime, d2)
  | some .date => .error (.nothingToDo, d)
  | none => .error (.nothingToDo, d)

/-- Observable outcome of `RawMessagesProcessor.handle`: the re-prompt reply
(`"Unsupported command ... try again."`), the add-reminder menu echo on
success, or an exception escaping the handler (the `KeyError` of an unknown
period unit is not in the handler's `except` clause). -/
inductive RawOutcome where
  | reprompt : RawOutcome
  | menuShown : Draft → RawOutcome
  | crashed : List Char → RawOutcome
deriving DecidableEq

/-- Model of `RawMessagesProcessor.handle`: look up the draft, run `process`, catch
`NothingToDo`, `ReminderNotFound` and `ValueError` by replying
"Unsupported command"; other exceptions escape. -/
def rawHandle (cache : Cache) (cid : ℤ) (text : List Char) (now : ℤ) : RawOutcome × Cache :=
  match cache cid with
  | none => (.reprompt, cache)
  | some d =>
    match d.process text now with
    | .ok d2 => (.menuShown d2, fun j => if j = cid then some d2 else cache j)
    | .error (.nothingToDo, d2) => (.reprompt, fun j => if j = cid then some d2 else cache j)
    | .error (.malformedPeriod, d2) => (.reprompt, fun j => if j = cid then some d2 else cache j)
    | .error (.malformedTime, d2) => (.reprompt, fun j => if j = cid then some d2 else cache j)
    | .error (.unknownUnit u, d2) => (.crashed u, fun j => if j = cid then some d2 else cache j)

/-- The persisted reminder row (`db.models.Reminder`).  `status` is the
`SmallInteger` column: `1` = active, `0` = stopped.  The `period` column
stores `str(relativedelta)` and `rewind` rebuilds the delta with `exec`;
since `eval(str(d)) == d` for these deltas, the column is modelled as the
delta itself (`none` for the stored string `"None"`). -/
structure PReminder where
  text : List Char
  create_time : ℤ
  remind_time_planned : ℤ
  remind_time_real : ℤ
  period : Option RDelta
  status : ℤ
deriving DecidableEq

/-- The owning principal's mutable state (`ChatUser.karma`, a SQL `Float`
modelled as an exact rational). -/
structure ChatUser where
  karma : ℚ
deriving DecidableEq

/-- Model of `Reminder.create(reminder_obj, update)`: materialize a completed draft,
with `create_time`, `remind_time_planned` and `remind_time_real` all set to
the draft's date and `status = 1`. -/
def Reminder.create (name : List Char) (date : ℤ) (period : Option RDelta) : PReminder :=
  ⟨name, date, date, date, period, 1⟩

/-- Model of `Reminder.stop`: set `status = 0` unconditionally. -/
def PReminder.stop (r : PReminder) : PReminder := { r with status := 0 }

/-- The `while self.remind_time_planned < datetime.now(): ... += delta` loop
of `Reminder.rewind`, with explicit fuel: `none` means the loop is still
running after `fuel` guard evaluations (so `∀ fuel, ... = none` is
non-termination), `some t` the final value of `remind_time_planned`. -/
def rewindLoop (a : RDelta) (now : ℤ) : ℕ → ℤ → Option ℤ
  | 0, _ => none
  | fuel + 1, t => if t < now then rewindLoop a now fuel (addDelta t a) else some t

/-- Model of `Reminder.rewind`: reconstruct the delta from the `period` column; stop
the reminder when it is `None`, otherwise run the catch-up loop, writing the
new time into both `remind_time_planned` and `remind_time_real`. -/
def PReminder.rewind (r : PReminder) (now : ℤ) (fuel : ℕ) : Option PReminder :=
  match r.period with
  | none => some r.stop
  | some a =>
    (rewindLoop a now fuel r.remind_time_planned).map
      (fun t => { r with remind_time_planned := t, remind_time_real := t })

/-- Model of `Reminder.success`: rewind, then `karma += 1` on the owning chat-user. -/
def PReminder.success (r : PReminder) (u : ChatUser) (now : ℤ) (fuel : ℕ) :
    Option (PReminder × ChatUser) :=
  (r.rewind now fuel).map (fun r2 => (r2, ⟨u.karma + 1⟩))

/-- Model of `Reminder.skip`: rewind only, no karma change. -/
def PReminder.skip (r : PReminder) (now : ℤ) (fuel : ℕ) : Option PReminder :=
  r.rewind now fuel

/-- Model of `Reminder.snooze(delta)`: `remind_time_real = datetime.now() + delta`
(note: `remind_time_planned` is left alone and `recurrence` is never read),
then `karma -= 0.1` on the owning chat-user. -/
def PReminder.snooze (r : PReminder) (a : RDelta) (u : ChatUser) (now : ℤ) :
    PReminder × ChatUser :=
  ({ r with remind_time_real := addDelta now a }, ⟨u.karma - 1 / 10⟩)

/-- The button actions of `ReminderMsg.handle`. -/
inductive RAction where
  | snooze15 : RAction
  | snooze60 : RAction
  | done : RAction
  | skipBtn : RAction
  | removeBtn : RAction
deriving DecidableEq

/-- Model of `ReminderMsg.handle` on a fetched reminder: dispatch on the action token.
The handler performs no status guard — it applies the transition to whatever
reminder the id resolves to.  (`relativedelta(minutes=15)` and
`relativedelta(minutes=60)` are the snooze deltas; dateutil normalises the
latter to `hours=+1`, which adds the same 3600 seconds.) -/
def reminderMsgHandle (act : RAction) (r : PReminder) (u : ChatUser) (now : ℤ) (fuel : ℕ) :
    Option (PReminder × ChatUser) :=
  match act with
  | .done => r.success u now fuel
  | .skipBtn => (r.skip now fuel).map (fun r2 => (r2, u))
  | .removeBtn => some (r.stop, u)
  | .snooze15 => some (r.snooze ⟨0, 0, 0, 0, 15, 0⟩ u now)
  | .snooze60 => some (r.snooze ⟨0, 0, 0, 0, 60, 0⟩ u now)

/-- Outcome of `SaveMenu.handle`. -/
inductive SaveOutcome where
  | reminderLost : SaveOutcome
  | missingField : ReminderField → SaveOutcome
  | saved : PReminder → SaveOutcome
deriving DecidableEq

/-- Model of `SaveMenu.handle`: require `name` and `date` (in that order, `period` is
not checked), then create the persisted reminder and pop the draft. -/
def saveMenuHandle (cache : Cache) (cid : ℤ) : SaveOutcome × Cache :=
  match cache cid with
  | none => (.reminderLost, cache)
  | some d =>
    match d.name with
    | none => (.missingField .name, cache)
    | some n =>
      match d.date with
      | none => (.missingField .date, cache)
      | some dt =>
        (.saved (Reminder.create n dt d.period), fun j => if j = cid then none else cache j)

/-- Ceiling of `a / b` for positive `b`. -/
def ceilDiv (a b : ℤ) : ℤ := (a + b - 1) / b

/-- Sum of a list of deltas (used to express the order-independence of the
`parsePeriod` accumulation loop). -/
def sumD (l : List RDelta) : RDelta := l.foldr RDelta.add RDelta.zero

/-- The per-token contribution `date_markup[unit] * amount` of the
`parsePeriod` loop (zero stands in for the impossible unknown-unit case). -/
def tokenDelta (tk : List Char × List Char) : RDelta :=
  ((date_markup tk.2).getD RDelta.zero).mul (digitsVal tk.1)

theorem rdAdd_comm (a b : RDelta) : a.add b = b.add a := by
  cases a; cases b; simp only [RDelta.add, RDelta.mk.injEq]; omega

theorem rdAdd_assoc (a b c : RDelta) : (a.add b).add c = a.add (b.add c) := by
  cases a; cases b; cases c; simp only [RDelta.add, RDelta.mk.injEq]; omega

theorem rdAdd_zero (a : RDelta) : a.add RDelta.zero = a := by
  cases a; simp only [RDelta.add, RDelta.zero, RDelta.mk.injEq]; omega

theorem rdZero_add (a : RDelta) : RDelta.zero.add a = a := by
  cases a; simp only [RDelta.add, RDelta.zero, RDelta.mk.injEq]; omega

theorem sumD_cons (a : RDelta) (l : List RDelta) : sumD (a :: l) = a.add (sumD l) := rfl

theorem sumD_perm {l1 l2 : List RDelta} (h : l1.Perm l2) : sumD l1 = sumD l2 := by
  induction h with
  | nil => rfl
  | cons x _ ih => simp only [sumD_cons, ih]
  | swap x y l =>
    simp only [sumD_cons, ← rdAdd_assoc]
    rw [rdAdd_comm y x]
  | trans _ _ ih1 ih2 => rw [ih1, ih2]

theorem parsePeriodGo_eq_sum :
    ∀ (ts : List (List Char × List Char)) (acc : RDelta),
      (∀ tk ∈ ts, (date_markup tk.2).isSome = true) →
      parsePeriodGo ts acc = .ok (acc.add (sumD (ts.map tokenDelta))) := by
  intro ts
  induction ts with
  | nil => intro acc _; simp [parsePeriodGo, sumD, rdAdd_zero]
  | cons tk ts ih =>
    intro acc hall
    obtain ⟨ds, us⟩ := tk
    have hsome : (date_markup us).isSome = true := hall _ (List.mem_cons_self _ _)
    obtain ⟨scale, hscale⟩ := Option.isSome_iff_exists.mp hsome
    simp only [parsePeriodGo, hscale]
    rw [ih _ (fun tk htk => hall tk (List.mem_cons_of_mem _ htk))]
    simp only [List.map_cons, sumD_cons, tokenDelta, hscale, rdAdd_assoc, Option.getD_some]

theorem addDelta_pure {a : RDelta} (hy : a.years = 0) (hm : a.months = 0) (t : ℤ) :
    addDelta t a = t + a.linSeconds := by
  simp [addDelta, hy, hm]

theorem rewindLoop_none {a : RDelta} (hy : a.years = 0) (hm : a.months = 0) (now : ℤ) :
    ∀ (fuel : ℕ) (t : ℤ), (∀ j : ℕ, j < fuel → t + (j : ℤ) * a.linSeconds < now) →
      rewindLoop a now fuel t = none := by
  intro fuel
  induction fuel with
  | zero => intro t _; rfl
  | succ n ih =>
    intro t hlt
    have h0 : t < now := by
      have := hlt 0 (Nat.succ_pos n)
      simpa using this
    simp only [rewindLoop, if_pos h0, addDelta_pure hy hm]
    apply ih
    intro j hj
    have := hlt (j + 1) (by omega)
    push_cast at this ⊢
    linarith

theorem rewindLoop_some {a : RDelta} (hy : a.years = 0) (hm : a.months = 0) (now : ℤ) :
    ∀ (k fuel : ℕ) (t : ℤ), k < fuel →
      (∀ j : ℕ, j < k → t + (j : ℤ) * a.linSeconds < now) →
      now ≤ t + (k : ℤ) * a.linSeconds →
      rewindLoop a now fuel t = some (t + (k : ℤ) * a.linSeconds) := by
  intro k
  induction k with
  | zero =>
    intro fuel t hf _ hk
    obtain ⟨m, rfl⟩ := Nat.exists_eq_add_of_lt hf
    have hnot : ¬ t < now := by push_cast at hk; omega
    simp [rewindLoop, hnot]
  | succ n ih =>
    intro fuel t hf hguard hk
    obtain ⟨m, rfl⟩ := Nat.exists_eq_add_of_lt hf
    have h0 : t < now := by
      have := hguard 0 (Nat.succ_pos n)
      simpa using this
    have step : rewindLoop a now (n + 1 + m + 1) t =
        rewindLoop a now (n + 1 + m) (t + a.linSeconds) := by
      simp only [rewindLoop, if_pos h0, addDelta_pure hy hm]
    rw [step]
    have hres := ih (n + 1 + m) (t + a.linSeconds) (by omega)
      (fun j hj => by
        have := hguard (j + 1) (by omega)
        push_cast at this ⊢
        linarith)
      (by push_cast at hk ⊢; linarith)
    rw [hres]
    congr 1
    push_cast
    ring

theorem ceilDiv_spec {n b : ℤ} (hb : 0 < b) (hn : 0 < n) :
    0 < ceilDiv n b ∧ n ≤ ceilDiv n b * b ∧ (ceilDiv n b - 1) * b < n := by
  have h1 := Int.ediv_add_emod (n + b - 1) b
  have h2 := Int.emod_nonneg (n + b - 1) (ne_of_gt hb)
  have h3 := Int.emod_lt_of_pos (n + b - 1) hb
  unfold ceilDiv
  set q := (n + b - 1) / b with hq
  set r := (n + b - 1) % b with hr
  refine ⟨?_, ?_, ?_⟩
  · nlinarith
  · nlinarith
  · nlinarith

/-- C2: the draft registry keeps at most one draft per conversation identity
(the cache maps each identity to at most one draft by construction), and
`Reminder.__init__` — the get-or-create entry of the add-reminder flow —
invoked while a live, unexpired draft exists for that identity fails with
`AlreadyInProcess`, leaves the registry exactly as it was, and in particular
leaves the existing draft in place. -/
theorem C2_single_draft_per_identity (cache : Cache) (cid : ℤ) (d : Draft)
    (h : cache cid = some d) :
    (reminderInit cache cid).1 = .error .alreadyInProcess ∧
    (reminderInit cache cid).2 = cache ∧
    (reminderInit cache cid).2 cid = some d := by
  simp [reminderInit, h]

/-- C2 witness: a registry holding a fresh draft under identity 5 rejects a
second creation for identity 5 and is left untouched. -/
theorem C2_single_draft_per_identity_witness :
    (reminderInit (fun j => if j = 5 then some Draft.new else none) 5).1 =
      .error .alreadyInProcess ∧
    (reminderInit (fun j => if j = 5 then some Draft.new else none) 5).2 =
      (fun j => if j = 5 then some Draft.new else none) ∧
    (reminderInit (fun j => if j = 5 then some Draft.new else none) 5).2 5 = some Draft.new :=
  C2_single_draft_per_identity (fun j => if j = 5 then some Draft.new else none) 5 Draft.new rfl

/-- C4: `snooze(delta)` sets `remind_time_real` (the authoritative next-due
timestamp) to `now + delta` — an expression that does not read `recurrence`,
so the result is the same for any stored period — decrements the owner's
karma by exactly 1/10, and changes no other reminder field. -/
theorem C4_snooze (r : PReminder) (a : RDelta) (u : ChatUser) (now : ℤ) :
    (r.snooze a u now).1.remind_time_real = addDelta now a ∧
    (∀ p : Option RDelta,
      ({ r with period := p }.snooze a u now).1.remind_time_real =
        (r.snooze a u now).1.remind_time_real) ∧
    (r.snooze a u now).2.karma = u.karma - 1 / 10 ∧
    (r.snooze a u now).1.text = r.text ∧
    (r.snooze a u now).1.create_time = r.create_time ∧
    (r.snooze a u now).1.remind_time_planned = r.remind_time_planned ∧
    (r.snooze a u now).1.period = r.period ∧
    (r.snooze a u now).1.status = r.status :=
  ⟨rfl, fun _ => rfl, rfl, rfl, rfl, rfl, rfl, rfl⟩

/-- C6: `SaveMenu.handle` on an existing draft fails and retains the draft
whenever `name` or `date` is unset (the period is never checked), and when
both are set it produces the persisted reminder with
`create_time = remind_time_planned = remind_time_real = date` and
`status = 1` (active), removing the draft from the registry and touching no
other registry key. -/
theorem C6_save_validation (cache : Cache) (cid : ℤ) (d : Draft)
    (h : cache cid = some d) :
    ((d.name = none ∨ d.date = none) →
      (∃ fld, (saveMenuHandle cache cid).1 = .missingField fld) ∧
      (saveMenuHandle cache cid).2 = cache ∧
      (saveMenuHandle cache cid).2 cid = some d) ∧
    (∀ (n : List Char) (dt : ℤ), d.name = some n → d.date = some dt →
      (saveMenuHandle cache cid).1 = .saved ⟨n, dt, dt, dt, d.period, 1⟩ ∧
      (saveMenuHandle cache cid).2 cid = none ∧
      (∀ j : ℤ, j ≠ cid → (saveMenuHandle cache cid).2 j = cache j)) := by
  constructor
  · intro hmiss
    cases hn : d.name with
    | none =>
      refine ⟨⟨.name, ?_⟩, ?_, ?_⟩ <;> simp [saveMenuHandle, h, hn]
    | some n =>
      cases hd : d.date with
      | none =>
        refine ⟨⟨.date, ?_⟩, ?_, ?_⟩ <;> simp [saveMenuHandle, h, hn, hd]
      | some dt =>
        cases hmiss with
        | inl h1 => rw [hn] at h1; cases h1
        | inr h2 => rw [hd] at h2; cases h2
  · intro n dt hn hd
    refine ⟨?_, ?_, fun j hj => ?_⟩
    · simp [saveMenuHandle, h, hn, hd, Reminder.create]
    · simp [saveMenuHandle, h, hn, hd]
    · simp [saveMenuHandle, h, hn, hd, hj]

/-- C6 witness: saving a draft with only a name set fails and keeps the
draft; saving a complete draft (name, date, no period) produces the active
reminder and empties the registry slot. -/
theorem C6_save_validation_witness :
    ((saveMenuHandle (fun j => if j = 1 then some ⟨none, some ['a'], none, none⟩ else none) 1).2 1 =
      some ⟨none, some ['a'], none, none⟩) ∧
    ((saveMenuHandle (fun j => if j = 1 then some ⟨none, some ['a'], some 7, none⟩ else none) 1).1 =
      .saved ⟨['a'], 7, 7, 7, none, 1⟩) ∧
    ((saveMenuHandle (fun j => if j = 1 then some ⟨none, some ['a'], some 7, none⟩ else none) 1).2 1 =
      none) := by
  refine ⟨?_, ?_, ?_⟩
  · exact (((C6_save_validation
      (fun j => if j = 1 then some ⟨none, some ['a'], none, none⟩ else none) 1
      ⟨none, some ['a'], none, none⟩ rfl).1 (Or.inr rfl)).2.2)
  · exact ((C6_save_validation
      (fun j => if j = 1 then some ⟨none, some ['a'], some 7, none⟩ else none) 1
      ⟨none, some ['a'], some 7, none⟩ rfl).2 ['a'] 7 rfl rfl).1
  · exact ((C6_save_validation
      (fun j => if j = 1 then some ⟨none, some ['a'], some 7, none⟩ else none) 1
      ⟨none, some ['a'], some 7, none⟩ rfl).2 ['a'] 7 rfl rfl).2.1

/-- C1 (amended): for a persisted reminder whose `period` is null, one call
to `rewind` transitions it to status 0 (stopped).  For a non-null recurrence
that is a pure duration (no month/year component) of positive length `s`,
with `remind_time_planned` in the past, the catch-up loop performs exactly
`ceil((now - old) / s)` addition steps — with any smaller fuel the loop is
still running, and with more fuel it returns after exactly that many
additions — and the resulting `next_fire_at` satisfies `now ≤ next_fire_at`
(greater than or equal to `now`, not strictly greater: the loop guard is
`<`, not `<=`). -/
theorem C1_rewind_catchup (r : PReminder) (now : ℤ) :
    (r.period = none → ∀ fuel : ℕ, r.rewind now fuel = some { r with status := 0 }) ∧
    (∀ a : RDelta, r.period = some a → a.years = 0 → a.months = 0 →
      0 < a.linSeconds → r.remind_time_planned < now →
      (∀ fuel : ℕ, (fuel : ℤ) ≤ ceilDiv (now - r.remind_time_planned) a.linSeconds →
        r.rewind now fuel = none) ∧
      (∀ fuel : ℕ, ceilDiv (now - r.remind_time_planned) a.linSeconds < (fuel : ℤ) →
        r.rewind now fuel = some { r with
          remind_time_planned := r.remind_time_planned +
            ceilDiv (now - r.remind_time_planned) a.linSeconds * a.linSeconds,
          remind_time_real := r.remind_time_planned +
            ceilDiv (now - r.remind_time_planned) a.linSeconds * a.linSeconds } ∧
        now ≤ r.remind_time_planned +
          ceilDiv (now - r.remind_time_planned) a.linSeconds * a.linSeconds)) := by
  constructor
  · intro hp fuel
    simp [PReminder.rewind, hp, PReminder.stop]
  · intro a hp hy hm hs hlt
    set t := r.remind_time_planned with ht
    set s := a.linSeconds with hsdef
    have hn : 0 < now - t := by omega
    obtain ⟨hq1, hq2, hq3⟩ := ceilDiv_spec hs hn
    set q := ceilDiv (now - t) s with hqdef
    have hqnat : ((q.toNat : ℤ)) = q := Int.toNat_of_nonneg (le_of_lt hq1)
    have hguard : ∀ j : ℕ, j < q.toNat → t + (j : ℤ) * s < now := by
      intro j hj
      have hj2 : (j : ℤ) ≤ q - 1 := by omega
      have : (j : ℤ) * s ≤ (q - 1) * s :=
        mul_le_mul_of_nonneg_right hj2 (le_of_lt hs)
      omega
    have hexit : now ≤ t + (q.toNat : ℤ) * s := by
      rw [hqnat]; omega
    constructor
    · intro fuel hfuel
      have hnone := rewindLoop_none hy hm now fuel t
        (fun j hj => hguard j (by omega))
      simp [PReminder.rewind, hp, hnone]
    · intro fuel hfuel
      have hsome := rewindLoop_some hy hm now q.toNat fuel t (by omega) hguard hexit
      rw [hqnat] at hsome
      constructor
      · simp [PReminder.rewind, hp, hsome]
      · omega

/-- C1 witness: a one-minute recurrence with `next_fire_at` 60 seconds in
the past catches up in exactly one addition step: fuel 1 is still looping,
fuel 2 returns with `next_fire_at = now`; a null recurrence stops instead. -/
theorem C1_rewind_catchup_witness :
    PReminder.rewind ⟨[], 0, 40, 40, some ⟨0, 0, 0, 0, 1, 0⟩, 1⟩ 100 1 = none ∧
    PReminder.rewind ⟨[], 0, 40, 40, some ⟨0, 0, 0, 0, 1, 0⟩, 1⟩ 100 2 =
      some ⟨[], 0, 40 + ceilDiv (100 - 40) 60 * 60, 40 + ceilDiv (100 - 40) 60 * 60,
        some ⟨0, 0, 0, 0, 1, 0⟩, 1⟩ ∧
    PReminder.rewind ⟨[], 0, 40, 40, none, 1⟩ 100 7 = some ⟨[], 0, 40, 40, none, 0⟩ := by
  have h := (C1_rewind_catchup ⟨[], 0, 40, 40, some ⟨0, 0, 0, 0, 1, 0⟩, 1⟩ 100).2
    ⟨0, 0, 0, 0, 1, 0⟩ rfl rfl rfl (by decide) (by decide)
  have h0 := (C1_rewind_catchup ⟨[], 0, 40, 40, none, 1⟩ 100).1 rfl 7
  exact ⟨h.1 1 (by decide), (h.2 2 (by decide)).1, h0⟩

/-- C1 counterexample to the claim as stated: when `now - old` is an exact
multiple of the recurrence the catch-up loop (guard `<`) stops at
`next_fire_at = now`, which is not strictly greater than `now` — here the
rewound reminder has `remind_time_planned = remind_time_real = 100` at
`now = 100`, and `100 < 100` is false. -/
theorem C1_strictness_counterexample :
    PReminder.rewind ⟨[], 0, 40, 40, some ⟨0, 0, 0, 0, 1, 0⟩, 1⟩ 100 2 =
      some ⟨[], 0, 100, 100, some ⟨0, 0, 0, 0, 1, 0⟩, 1⟩ ∧
    ¬ ((100 : ℤ) < 100) := by
  exact ⟨by decide, by decide⟩

/-- C10: `parsePeriod` accepts a zero amount — `"0min"` parses to the zero
delta — so a reminder whose stored recurrence is the zero delta can be
created, and for any such reminder whose `remind_time_planned` is in the
past the catch-up loop of `rewind` never terminates: every fuel bound is
exhausted with the loop still running. -/
theorem C10_zero_recurrence_divergence :
    parsePeriod ['0', 'm', 'i', 'n'] = .ok ⟨0, 0, 0, 0, 0, 0⟩ ∧
    (∀ (r : PReminder) (now : ℤ) (fuel : ℕ),
      r.period = some ⟨0, 0, 0, 0, 0, 0⟩ → r.remind_time_planned < now →
      r.rewind now fuel = none) := by
  constructor
  · decide
  · intro r now fuel hp hlt
    have hnone := rewindLoop_none (a := ⟨0, 0, 0, 0, 0, 0⟩) rfl rfl now fuel
      r.remind_time_planned (fun j _ => by simpa [RDelta.linSeconds] using hlt)
    simp [PReminder.rewind, hp, hnone]

/-- C10 witness: the reminder created from a saved draft with period
`"0min"` and a due time one second in the past never leaves the catch-up
loop, at fuel 100 as at any other. -/
theorem C10_zero_recurrence_divergence_witness :
    parsePeriod ['0', 'm', 'i', 'n'] = .ok ⟨0, 0, 0, 0, 0, 0⟩ ∧
    PReminder.rewind (Reminder.create ['a'] 0 (some ⟨0, 0, 0, 0, 0, 0⟩)) 1 100 = none :=
  ⟨(C10_zero_recurrence_divergence).1,
   (C10_zero_recurrence_divergence).2 (Reminder.create ['a'] 0 (some ⟨0, 0, 0, 0, 0, 0⟩))
     1 100 rfl (by decide)⟩

/-- C3 (amended): once `stop` has set `status = 0`, the status is permanent —
`snooze`, `stop`, `rewind`, `complete` (`success`), `skip`, and every button
action of `ReminderMsg.handle` leave `status = 0`, since no transition ever
writes `status = 1` — but `next_fire_at` is not frozen: the transitions are
applied to stopped reminders unguarded, and `snooze` (as well as the
catch-up of complete/skip) still rewrites `remind_time_real`. -/
theorem C3_stopped_status_terminal (r : PReminder) (h : r.status = 0) :
    ∀ (a : RDelta) (u : ChatUser) (now : ℤ) (fuel : ℕ),
      (r.snooze a u now).1.status = 0 ∧
      r.stop.status = 0 ∧
      (∀ r2, r.rewind now fuel = some r2 → r2.status = 0) ∧
      (∀ r2 u2, r.success u now fuel = some (r2, u2) → r2.status = 0) ∧
      (∀ r2, r.skip now fuel = some r2 → r2.status = 0) ∧
      (∀ act r2 u2, reminderMsgHandle act r u now fuel = some (r2, u2) → r2.status = 0) := by
  intro a u now fuel
  have hrew : ∀ r2, r.rewind now fuel = some r2 → r2.status = 0 := by
    intro r2 hr2
    cases hp : r.period with
    | none =>
      simp only [PReminder.rewind, hp, Option.some.injEq] at hr2
      rw [← hr2]
      rfl
    | some b =>
      simp only [PReminder.rewind, hp] at hr2
      obtain ⟨t, _, hft⟩ := Option.map_eq_some'.mp hr2
      rw [← hft]
      exact h
  have hsucc : ∀ r2 u2, r.success u now fuel = some (r2, u2) → r2.status = 0 := by
    intro r2 u2 hs
    unfold PReminder.success at hs
    obtain ⟨r3, hr3, hpair⟩ := Option.map_eq_some'.mp hs
    have : r3 = r2 := congrArg Prod.fst hpair
    exact this ▸ hrew r3 hr3
  refine ⟨h, rfl, hrew, hsucc, hrew, ?_⟩
  intro act r2 u2 hact
  cases act with
  | done => exact hsucc r2 u2 hact
  | skipBtn =>
    unfold reminderMsgHandle at hact
    obtain ⟨r3, hr3, hpair⟩ := Option.map_eq_some'.mp hact
    have : r3 = r2 := congrArg Prod.fst hpair
    exact this ▸ hrew r3 hr3
  | removeBtn => cases hact; rfl
  | snooze15 => cases hact; exact h
  | snooze60 => cases hact; exact h

/-- C3 witness: a stopped one-shot reminder keeps `status = 0` under a
snooze and under the Done button at any fuel. -/
theorem C3_stopped_status_terminal_witness :
    ((PReminder.stop ⟨[], 0, 50, 50, none, 1⟩).snooze ⟨0, 0, 0, 0, 15, 0⟩ ⟨1⟩ 100).1.status = 0 ∧
    (∀ r2 u2,
      reminderMsgHandle .done (PReminder.stop ⟨[], 0, 50, 50, none, 1⟩) ⟨1⟩ 100 3 = some (r2, u2) →
      r2.status = 0) := by
  have h := C3_stopped_status_terminal (PReminder.stop ⟨[], 0, 50, 50, none, 1⟩) rfl
    ⟨0, 0, 0, 0, 15, 0⟩ ⟨1⟩ 100 3
  exact ⟨h.1, fun r2 u2 => h.2.2.2.2.2 .done r2 u2⟩

/-- C3 counterexample to the claim as stated: `snooze` applied after `stop`
does change `next_fire_at` — the stopped reminder's `remind_time_real` moves
from 50 to `100 + 15*60 = 1000` — so "every subsequently applied transition
leaves `next_fire_at` unchanged" is false (only the status part holds). -/
theorem C3_stopped_next_fire_counterexample :
    (PReminder.stop ⟨[], 0, 50, 50, none, 1⟩).remind_time_real = 50 ∧
    ((PReminder.stop ⟨[], 0, 50, 50, none, 1⟩).snooze
      ⟨0, 0, 0, 0, 15, 0⟩ ⟨1⟩ 100).1.remind_time_real = 1000 ∧
    ((1000 : ℤ) ≠ 50) := by
  exact ⟨by decide, by decide, by decide⟩

/-- C5: `success` (complete) rewinds first and then adds exactly 1 to the
owning principal's karma.  Concretely: the draft named "Pay rent" with
`first_fire_at = 2024-01-01T09:00:00` and a one-month recurrence saves to an
active reminder due at 2024-01-01T09:00:00, and one `complete` — at any
moment `now` after the due time and no later than one month after it, with
any fuel ≥ 2 — yields `next_fire_at = 2024-02-01T09:00:00` and
`karma = old + 1`. -/
theorem C5_complete_roundtrip (cache : Cache) (cid : ℤ) (u : ChatUser) (now : ℤ) (f : ℕ)
    (hc : cache cid = some ⟨none, some ['P', 'a', 'y', ' ', 'r', 'e', 'n', 't'],
      some (mkDT 2024 1 1 9 0 0), some ⟨0, 1, 0, 0, 0, 0⟩⟩)
    (h1 : mkDT 2024 1 1 9 0 0 < now)
    (h2 : now ≤ mkDT 2024 2 1 9 0 0) :
    (saveMenuHandle cache cid).1 = .saved ⟨['P', 'a', 'y', ' ', 'r', 'e', 'n', 't'],
      mkDT 2024 1 1 9 0 0, mkDT 2024 1 1 9 0 0, mkDT 2024 1 1 9 0 0,
      some ⟨0, 1, 0, 0, 0, 0⟩, 1⟩ ∧
    PReminder.success ⟨['P', 'a', 'y', ' ', 'r', 'e', 'n', 't'], mkDT 2024 1 1 9 0 0,
        mkDT 2024 1 1 9 0 0, mkDT 2024 1 1 9 0 0, some ⟨0, 1, 0, 0, 0, 0⟩, 1⟩
        u now (f + 1 + 1) =
      some (⟨['P', 'a', 'y', ' ', 'r', 'e', 'n', 't'], mkDT 2024 1 1 9 0 0,
        mkDT 2024 2 1 9 0 0, mkDT 2024 2 1 9 0 0, some ⟨0, 1, 0, 0, 0, 0⟩, 1⟩,
        ⟨u.karma + 1⟩) := by
  constructor
  · simp [saveMenuHandle, hc, Reminder.create]
  · have hstep : addDelta (mkDT 2024 1 1 9 0 0) ⟨0, 1, 0, 0, 0, 0⟩ = mkDT 2024 2 1 9 0 0 := by
      decide
    have hloop : rewindLoop ⟨0, 1, 0, 0, 0, 0⟩ now (f + 1 + 1) (mkDT 2024 1 1 9 0 0) =
        some (mkDT 2024 2 1 9 0 0) := by
      conv_lhs => rw [rewindLoop]
      rw [if_pos h1, hstep, rewindLoop, if_neg (not_lt.mpr h2)]
    simp [PReminder.success, PReminder.rewind, hloop]

/-- C5 witness: completing the saved "Pay rent" reminder on 2024-01-02
advances it to 2024-02-01T09:00:00 and raises karma from 0 to 1. -/
theorem C5_complete_roundtrip_witness :
    (saveMenuHandle (fun j => if j = 0 then some ⟨none,
        some ['P', 'a', 'y', ' ', 'r', 'e', 'n', 't'], some (mkDT 2024 1 1 9 0 0),
        some ⟨0, 1, 0, 0, 0, 0⟩⟩ else none) 0).1 =
      .saved ⟨['P', 'a', 'y', ' ', 'r', 'e', 'n', 't'], mkDT 2024 1 1 9 0 0,
        mkDT 2024 1 1 9 0 0, mkDT 2024 1 1 9 0 0, some ⟨0, 1, 0, 0, 0, 0⟩, 1⟩ ∧
    PReminder.success ⟨['P', 'a', 'y', ' ', 'r', 'e', 'n', 't'], mkDT 2024 1 1 9 0 0,
        mkDT 2024 1 1 9 0 0, mkDT 2024 1 1 9 0 0, some ⟨0, 1, 0, 0, 0, 0⟩, 1⟩
        ⟨0⟩ (mkDT 2024 1 2 0 0 0) (0 + 1 + 1) =
      some (⟨['P', 'a', 'y', ' ', 'r', 'e', 'n', 't'], mkDT 2024 1 1 9 0 0,
        mkDT 2024 2 1 9 0 0, mkDT 2024 2 1 9 0 0, some ⟨0, 1, 0, 0, 0, 0⟩, 1⟩,
        ⟨(0 : ℚ) + 1⟩) :=
  C5_complete_roundtrip (fun j => if j = 0 then some ⟨none,
      some ['P', 'a', 'y', ' ', 'r', 'e', 'n', 't'], some (mkDT 2024 1 1 9 0 0),
      some ⟨0, 1, 0, 0, 0, 0⟩⟩ else none) 0 ⟨0⟩ (mkDT 2024 1 2 0 0 0) 0
    rfl (by decide) (by decide)

/-- C7 (amended): input that fails the grammar's regex prefix match fails
with the explicit `MalformedPeriod` (`ValueError`), and that failure is
recovered locally — the raw-message handler replies with the re-prompt and
the registry is unchanged.  Input that does match the token pattern but uses
an unknown unit fails differently: `parsePeriod` raises the `KeyError` of
the `date_markup` lookup, which is not in the handler's `except` clause, so
the failure escapes instead of re-prompting. -/
theorem C7_malformed_period_paths :
    (∀ l : List Char, prefixMatch (preprocess l) = false →
      parsePeriod l = .error .malformed) ∧
    (∀ (cache : Cache) (cid : ℤ) (d : Draft) (l : List Char) (now : ℤ),
      cache cid = some d → d.waiting_for = some .period →
      parsePeriod l = .error .malformed →
      (rawHandle cache cid l now).1 = .reprompt ∧
      (∀ j : ℤ, (rawHandle cache cid l now).2 j = cache j)) ∧
    (∀ (cache : Cache) (cid : ℤ) (d : Draft) (l : List Char) (u : List Char) (now : ℤ),
      cache cid = some d → d.waiting_for = some .period →
      parsePeriod l = .error (.unknownUnit u) →
      (rawHandle cache cid l now).1 = .crashed u) := by
  refine ⟨?_, ?_, ?_⟩
  · intro l hm
    simp [parsePeriod, hm]
  · intro cache cid d l now hc hw hp
    constructor
    · simp [rawHandle, hc, Draft.process, hw, hp]
    · intro j
      by_cases hj : j = cid
      · subst hj
        simp [rawHandle, hc, Draft.process, hw, hp]
      · simp [rawHandle, hc, Draft.process, hw, hp, hj]
  · intro cache cid d l u now hc hw hp
    simp [rawHandle, hc, Draft.process, hw, hp]

/-- C7 witness: `"zzz"` fails the prefix match and is answered with the
re-prompt, leaving the registry intact; `"5h"` parses fine; the unknown-unit
path is exercised by the counterexample input `"5x"`, whose `KeyError`
escapes the handler. -/
theorem C7_malformed_period_paths_witness :
    parsePeriod ['z', 'z', 'z'] = .error .malformed ∧
    (rawHandle (fun j => if j = 0 then some ⟨some .period, none, none, none⟩ else none)
      0 ['z', 'z', 'z'] 9).1 = .reprompt ∧
    (rawHandle (fun j => if j = 0 then some ⟨some .period, none, none, none⟩ else none)
      0 ['z', 'z', 'z'] 9).2 0 = some ⟨some .period, none, none, none⟩ ∧
    (rawHandle (fun j => if j = 0 then some ⟨some .period, none, none, none⟩ else none)
      0 ['5', 'x'] 9).1 = .crashed ['x'] := by
  have h1 := C7_malformed_period_paths.1 ['z', 'z', 'z'] (by decide)
  have h2 := C7_malformed_period_paths.2.1
    (fun j => if j = 0 then some ⟨some .period, none, none, none⟩ else none)
    0 ⟨some .period, none, none, none⟩ ['z', 'z', 'z'] 9 rfl rfl h1
  have h3 := C7_malformed_period_paths.2.2
    (fun j => if j = 0 then some ⟨some .period, none, none, none⟩ else none)
    0 ⟨some .period, none, none, none⟩ ['5', 'x'] ['x'] 9 rfl rfl (by decide)
  exact ⟨h1, h2.1, (h2.2 0).trans rfl, h3⟩

/-- C7 counterexample to the claim as stated: the unknown-unit input `"5x"`
does match the token shape, so it does not fail with `MalformedPeriod` —
`parsePeriod` fails with the distinct `KeyError` value `unknownUnit "x"`,
and the raw-message handler crashes on it instead of re-prompting. -/
theorem C7_unknown_unit_counterexample :
    parsePeriod ['5', 'x'] = .error (.unknownUnit ['x']) ∧
    PeriodErr.unknownUnit ['x'] ≠ PeriodErr.malformed ∧
    (rawHandle (fun j => if j = 0 then some ⟨some .period, none, none, none⟩ else none)
      0 ['5', 'x'] 9).1 ≠ .reprompt := by
  refine ⟨by decide, by decide, by decide⟩

/-- C8: on inputs that pass the grammar's prefix match and whose tokens all
carry known units, `parsePeriod` depends only on the multiset of
`(amount, unit)` tokens — any two inputs whose token lists are permutations
of one another parse to the same total duration — and repeated units
accumulate additively: `"1d1d"` parses to a two-day delta. -/
theorem C8_period_order_irrelevant :
    (∀ l1 l2 : List Char,
      (tokenize (preprocess l1)).Perm (tokenize (preprocess l2)) →
      prefixMatch (preprocess l1) = true → prefixMatch (preprocess l2) = true →
      (∀ tk ∈ tokenize (preprocess l1), (date_markup tk.2).isSome = true) →
      parsePeriod l1 = parsePeriod l2) ∧
    parsePeriod ['1', 'd', '1', 'd'] = .ok ⟨0, 0, 2, 0, 0, 0⟩ := by
  constructor
  · intro l1 l2 hperm h1 h2 hall
    have hall2 : ∀ tk ∈ tokenize (preprocess l2), (date_markup tk.2).isSome = true :=
      fun tk htk => hall tk (hperm.symm.subset htk)
    simp only [parsePeriod, h1, h2, if_true]
    rw [parsePeriodGo_eq_sum _ _ hall, parsePeriodGo_eq_sum _ _ hall2,
      sumD_perm (hperm.map tokenDelta)]
  · decide

/-- C8 witness: `"1h30min"` and `"30min1h"` are token permutations of each
other and parse to the same duration. -/
theorem C8_period_order_irrelevant_witness :
    parsePeriod ['1', 'h', '3', '0', 'm', 'i', 'n'] =
      parsePeriod ['3', '0', 'm', 'i', 'n', '1', 'h'] :=
  C8_period_order_irrelevant.1 ['1', 'h', '3', '0', 'm', 'i', 'n']
    ['3', '0', 'm', 'i', 'n', '1', 'h'] (by decide) (by decide) (by decide) (by decide)

theorem filter_nospace {l : List Char} (h : (' ' : Char) ∉ l) :
    l.filter (fun c => c ≠ ' ') = l := by
  apply List.filter_eq_self.mpr
  intro x hx
  simp only [ne_eq, decide_eq_true_eq]
  intro heq
  exact h (heq ▸ hx)

theorem splitC_sepFree (c : Char) : ∀ l : List Char, c ∉ l → splitC c l = [l] := by
  intro l
  induction l with
  | nil => intro _; rfl
  | cons x xs ih =>
    intro h
    have hx : ¬ x = c := fun he => h (he ▸ List.mem_cons_self x xs)
    have hxs : c ∉ xs := fun hm => h (List.mem_cons_of_mem x hm)
    simp only [splitC, if_neg hx, ih hxs, consHead]

theorem splitC_append (c : Char) :
    ∀ a b : List Char, c ∉ a → splitC c (a ++ c :: b) = a :: splitC c b := by
  intro a
  induction a with
  | nil =>
    intro b _
    simp [splitC]
  | cons x xs ih =>
    intro b h
    have hx : ¬ x = c := fun he => h (he ▸ List.mem_cons_self x xs)
    have hxs : c ∉ xs := fun hm => h (List.mem_cons_of_mem x hm)
    simp only [List.cons_append, splitC, if_neg hx, List.append_eq]
    rw [ih b hxs]
    rfl

/-- C9: `parseTime` accepts `H`, `H:M` and `H:M:S` (components given to
Python's `int`), defaulting the missing trailing components to 0; it fails
with the `MalformedTime` `ValueError` whenever some `:`-separated component
is not an integer; and it does no range checking of its own — `"25:99"` is
accepted as hour 25, minute 99. -/
theorem C9_parse_time (a b c : List Char) (va vb vc : ℤ)
    (ha1 : (':' : Char) ∉ a) (ha2 : (' ' : Char) ∉ a)
    (hb1 : (':' : Char) ∉ b) (hb2 : (' ' : Char) ∉ b)
    (hc1 : (':' : Char) ∉ c) (hc2 : (' ' : Char) ∉ c)
    (hva : pyInt a = some va) (hvb : pyInt b = some vb) (hvc : pyInt c = some vc) :
    parseTime a = .ok [va, 0, 0] ∧
    parseTime (a ++ ':' :: b) = .ok [va, vb, 0] ∧
    parseTime (a ++ ':' :: b ++ ':' :: c) = .ok [va, vb, vc] ∧
    (∀ l : List Char,
      (∃ p ∈ splitC ':' (l.filter (fun ch => ch ≠ ' ')), pyInt p = none) →
      parseTime l = .error .malformedTime) ∧
    parseTime ['2', '5', ':', '9', '9'] = .ok [25, 99, 0] := by
  have hcons : ∀ l : List Char,
      (':' :: l).filter (fun ch => ch ≠ ' ') = ':' :: l.filter (fun ch => ch ≠ ' ') := by
    intro l
    simp [List.filter_cons]
  have hfa : (a ++ ':' :: b).filter (fun ch => ch ≠ ' ') = a ++ ':' :: b := by
    rw [List.filter_append, filter_nospace ha2, hcons, filter_nospace hb2]
  have hfabc : (a ++ ':' :: b ++ ':' :: c).filter (fun ch => ch ≠ ' ') =
      a ++ ':' :: b ++ ':' :: c := by
    rw [List.filter_append, hfa, hcons, filter_nospace hc2]
  refine ⟨?_, ?_, ?_, ?_, ?_⟩
  · simp only [parseTime, filter_nospace ha2, splitC_sepFree ':' a ha1]
    simp [hva, List.replicate]
  · have hsplit : splitC ':' (a ++ ':' :: b) = [a, b] := by
      rw [splitC_append ':' a b ha1, splitC_sepFree ':' b hb1]
    simp only [parseTime, hfa, hsplit]
    simp [hva, hvb, List.replicate]
  · have hsplit : splitC ':' (a ++ ':' :: b ++ ':' :: c) = [a, b, c] := by
      rw [List.append_assoc, List.cons_append, splitC_append ':' a (b ++ ':' :: c) ha1,
        splitC_append ':' b c hb1, splitC_sepFree ':' c hc1]
    simp only [parseTime, hfabc, hsplit]
    simp [hva, hvb, hvc, List.replicate]
  · intro l hbad
    obtain ⟨p, hp, hnone⟩ := hbad
    have : ¬ ((splitC ':' (l.filter (fun ch => ch ≠ ' '))).map pyInt).all Option.isSome = true := by
      intro hall
      have := List.all_eq_true.mp hall (pyInt p) (List.mem_map_of_mem pyInt hp)
      rw [hnone] at this
      cases this
    simp only [parseTime]
    rw [if_neg this]
  · decide

/-- C9 witness: `"9"`, `"9:30"` and `"9:30:05"` parse to the padded triples,
`"a:5"` fails with `MalformedTime`, and `"25:99"` is accepted unchecked. -/
theorem C9_parse_time_witness :
    parseTime ['9'] = .ok [9, 0, 0] ∧
    parseTime (['9'] ++ ':' :: ['3', '0']) = .ok [9, 30, 0] ∧
    parseTime (['9'] ++ ':' :: ['3', '0'] ++ ':' :: ['0', '5']) = .ok [9, 30, 5] ∧
    parseTime ['a', ':', '5'] = .error .malformedTime ∧
    parseTime ['2', '5', ':', '9', '9'] = .ok [25, 99, 0] := by
  have h := C9_parse_time ['9'] ['3', '0'] ['0', '5'] 9 30 5
    (by decide) (by decide) (by decide) (by decide) (by decide) (by decide)
    (by decide) (by decide) (by decide)
  exact ⟨h.1, h.2.1, h.2.2.1,
    h.2.2.2.1 ['a', ':', '5'] ⟨['a'], by decide, by decide⟩, h.2.2.2.2⟩
